import Mathlib

/-!
Shallow embedding of the Open3D `RaycastingScene` core
(`cpp/open3d/t/geometry/RaycastingScene.cpp`).

The embree acceleration structure is an external collaborator; it is
modelled as an abstract `Provider` that yields, per ray record, the
nearest hit (for `rtcIntersect1M`), the stream of candidate hits
presented to the intersection filter (for the crossing counter), and,
per query point, the stream of primitive candidates presented to the
point-query callback (for `rtcPointQuery`), in traversal order.

Machine floats appear in two roles.  Where only equality/ordering of
stored values matters (ray components, `tfar`, distances) they are
modelled as exact rationals: every float is a rational and the
comparisons in the code are exact.  The normal-normalization path of
`CastRays` performs `1.f / std::sqrt(x)` and multiplications whose
IEEE-754 special values (infinity, NaN) are observable, so that path
uses the `FP` model below, which represents a float as a rational,
an infinity, or NaN, with the IEEE rules for the operations involved
(`sqrt(+0) = +0`, `1/+0 = +inf`, `0 * inf = NaN`).  Float square roots
are modelled exactly on radicands whose root is rational; other
radicands are mapped to NaN and are never used by the theorems.
-/

/-- Sentinel `RTC_INVALID_GEOMETRY_ID` (`(unsigned int)-1` in embree). -/
def RTC_INVALID_GEOMETRY_ID : ℕ := 4294967295

/-- `std::numeric_limits<uint32_t>::max()`, the handle width bound used by
`RaycastingScene::AddTriangles(const TriangleMesh&)`. -/
def UINT32_MAX : ℕ := 4294967295

/-- `MAX_BATCH_SIZE` from RaycastingScene.cpp line 44. The batched loops are
embedded with the batch size as a parameter so that the chunking claims can
quantify over it; the code instantiates it with this constant. -/
def MAX_BATCH_SIZE : ℕ := 1048576

/-- A 3-vector of float values (floats modelled as exact rationals). -/
structure Vec3 where
  x : ℚ
  y : ℚ
  z : ℚ
deriving DecidableEq

/-- Componentwise difference of two vectors. -/
def sub3 (a b : Vec3) : Vec3 := ⟨a.x - b.x, a.y - b.y, a.z - b.z⟩

/-- One input ray: 6 floats `(origin.xyz, dir_or_end.xyz)`; the meaning of
the second triple depends on the `LINE_INTERSECTION` template argument. -/
structure Ray6 where
  o : Vec3
  d : Vec3
deriving DecidableEq

/-- Default element used for in-range `List.getD` indexing of ray buffers. -/
def defaultRay : Ray6 := ⟨⟨0, 0, 0⟩, ⟨0, 0, 0⟩⟩

/-- IEEE-754 float value model: a finite rational, an infinity, or NaN. -/
inductive FP where
  | num : ℚ → FP
  | inf : FP
  | ninf : FP
  | nan : FP
deriving DecidableEq

/-- IEEE float multiplication on the `FP` model (`0 * inf = NaN`). -/
def fpMul : FP → FP → FP
  | FP.nan, _ => FP.nan
  | _, FP.nan => FP.nan
  | FP.num a, FP.num b => FP.num (a * b)
  | FP.num a, FP.inf => if a = 0 then FP.nan else if 0 < a then FP.inf else FP.ninf
  | FP.num a, FP.ninf => if a = 0 then FP.nan else if 0 < a then FP.ninf else FP.inf
  | FP.inf, FP.num a => if a = 0 then FP.nan else if 0 < a then FP.inf else FP.ninf
  | FP.ninf, FP.num a => if a = 0 then FP.nan else if 0 < a then FP.ninf else FP.inf
  | FP.inf, FP.inf => FP.inf
  | FP.inf, FP.ninf => FP.ninf
  | FP.ninf, FP.inf => FP.ninf
  | FP.ninf, FP.ninf => FP.inf

/-- IEEE float division on the `FP` model (`1/+0 = +inf`, `0/0 = NaN`). -/
def fpDiv : FP → FP → FP
  | FP.nan, _ => FP.nan
  | _, FP.nan => FP.nan
  | FP.num a, FP.num b =>
      if b = 0 then (if a = 0 then FP.nan else if 0 < a then FP.inf else FP.ninf)
      else FP.num (a / b)
  | FP.num _, FP.inf => FP.num 0
  | FP.num _, FP.ninf => FP.num 0
  | FP.inf, FP.num b => if 0 ≤ b then FP.inf else FP.ninf
  | FP.ninf, FP.num b => if 0 ≤ b then FP.ninf else FP.inf
  | FP.inf, FP.inf => FP.nan
  | FP.inf, FP.ninf => FP.nan
  | FP.ninf, FP.inf => FP.nan
  | FP.ninf, FP.ninf => FP.nan

/-- Exact natural square root: `some r` when `n = r * r`, else `none`. -/
def natSqrtExact (n : ℕ) : Option ℕ := (List.range (n + 1)).find? (fun r => r * r = n)

/-- Exact rational square root: `some r` when `q` is the square of a
nonnegative rational `r`, else `none`. -/
def ratSqrt (q : ℚ) : Option ℚ :=
  if q < 0 then none
  else
    match natSqrtExact q.num.toNat, natSqrtExact q.den with
    | some sn, some sd => some ((sn : ℚ) / (sd : ℚ))
    | _, _ => none

/-- Float `std::sqrt` on the `FP` model: exact where the root is rational
(in particular `sqrt(+0) = +0`); radicands with irrational roots are not
needed by any theorem and are mapped to NaN. -/
def fpSqrt : FP → FP
  | FP.num q =>
      match ratSqrt q with
      | some r => FP.num r
      | none => FP.nan
  | FP.inf => FP.inf
  | FP.ninf => FP.nan
  | FP.nan => FP.nan

/-- Normal normalization of `RaycastingScene::Impl::CastRays`
(RaycastingScene.cpp lines 273-278):
`inv_norm = 1.f / sqrt(Ng_x*Ng_x + Ng_y*Ng_y + Ng_z*Ng_z)` followed by
componentwise multiplication by `inv_norm`. -/
def normalizeNg (x y z : ℚ) : FP × FP × FP :=
  let inv_norm := fpDiv (FP.num 1) (fpSqrt (FP.num (x * x + y * y + z * z)))
  (fpMul (FP.num x) inv_norm, fpMul (FP.num y) inv_norm, fpMul (FP.num z) inv_norm)

/-- An embree hit as read back from an `RTCRayHit` whose `geomID` is valid:
`tfar` (hit parameter written by the provider), ids, barycentric `u`, `v`,
and the unnormalized geometric normal `Ng`. -/
structure EmbreeHit where
  tfar : ℚ
  geomID : ℕ
  primID : ℕ
  u : ℚ
  v : ℚ
  ngx : ℚ
  ngy : ℚ
  ngz : ℚ
deriving DecidableEq

/-- The provider-native ray record populated by the chunk loop
(RaycastingScene.cpp lines 233-259): origin, direction, `tnear = 0`, and
the initial `tfar` (`1.f` for segments, `+inf` for unbounded rays). The
`id` field is `i - start_idx` in the code and the provider writes results
back at `id + start_idx = i`; this identity indexing is embedded by keeping
the batch in order. -/
structure RayRecord where
  orgx : ℚ
  orgy : ℚ
  orgz : ℚ
  dirx : ℚ
  diry : ℚ
  dirz : ℚ
  tnear : ℚ
  tfar0 : FP
deriving DecidableEq

/-- Populating one `RTCRayHit` ray record; for `LINE_INTERSECTION` the
direction is `end - origin` and the parameter range is `[0, 1]`, otherwise
the raw direction with range `[0, +inf)`. -/
def makeRayRecord (lineIntersection : Bool) (r : Ray6) : RayRecord :=
  { orgx := r.o.x
    orgy := r.o.y
    orgz := r.o.z
    dirx := if lineIntersection then r.d.x - r.o.x else r.d.x
    diry := if lineIntersection then r.d.y - r.o.y else r.d.y
    dirz := if lineIntersection then r.d.z - r.o.z else r.d.z
    tnear := 0
    tfar0 := if lineIntersection then FP.num 1 else FP.inf }

/-- One public Hit record of `CastRays`. -/
structure HitResult where
  t_hit : FP
  geomID : ℕ
  primID : ℕ
  u : ℚ
  v : ℚ
  nx : FP
  ny : FP
  nz : FP
deriving DecidableEq

/-- Translation of one provider result back into the public Hit record
(RaycastingScene.cpp lines 264-288): on a valid hit the ids, uv and the
normalized normal are copied, `t_hit` is the provider-written `tfar`; on a
miss the ids are `RTC_INVALID_GEOMETRY_ID`, uv and normal are zeroed and
`t_hit` is the initial `tfar` (left unchanged by the provider). -/
def translateRayHit (rec : RayRecord) (res : Option EmbreeHit) : HitResult :=
  match res with
  | some h =>
      { t_hit := FP.num h.tfar
        geomID := h.geomID
        primID := h.primID
        u := h.u
        v := h.v
        nx := (normalizeNg h.ngx h.ngy h.ngz).1
        ny := (normalizeNg h.ngx h.ngy h.ngz).2.1
        nz := (normalizeNg h.ngx h.ngy h.ngz).2.2 }
  | none =>
      { t_hit := rec.tfar0
        geomID := RTC_INVALID_GEOMETRY_ID
        primID := RTC_INVALID_GEOMETRY_ID
        u := 0
        v := 0
        nx := FP.num 0
        ny := FP.num 0
        nz := FP.num 0 }

/-- Processing of a single ray: populate the record, query the provider,
translate the result. -/
def castOneRay (nearestHit : RayRecord → Option EmbreeHit) (lineIntersection : Bool)
    (r : Ray6) : HitResult :=
  translateRayHit (makeRayRecord lineIntersection r)
    (nearestHit (makeRayRecord lineIntersection r))

/-- `utility::DivUp` as used for the batch count. -/
def divUp (x y : ℕ) : ℕ := (x + y - 1) / y

/-- The chunked loop of `RaycastingScene::Impl::CastRays`
(RaycastingScene.cpp lines 223-289): the scratch vector holds
`min num_rays batchSize` records, `num_batches = DivUp num_rays chunk`,
and batch `n` covers indices `[n*chunk, min num_rays ((n+1)*chunk))`; each
batch populates its records, issues one wide provider call (modelled
per-record, as `rtcIntersect1M` computes an independent nearest hit for
each record), and writes each result at output index `ray.id + start_idx`,
which equals the input index. -/
def castRaysChunked (nearestHit : RayRecord → Option EmbreeHit) (lineIntersection : Bool)
    (rays : List Ray6) (batchSize : ℕ) : List HitResult :=
  let numRays := rays.length
  let chunk := min numRays batchSize
  let numBatches := divUp numRays chunk
  (List.range numBatches).flatMap (fun n =>
    let startIdx := n * chunk
    let endIdx := min numRays ((n + 1) * chunk)
    let recs := (List.range (endIdx - startIdx)).map
      (fun j => makeRayRecord lineIntersection (rays.getD (startIdx + j) defaultRay))
    recs.map (fun rec => translateRayHit rec (nearestHit rec)))

/-- Per-ray state of the crossing-count traversal filter: the
`(last_geom, last_prim, last_t)` triple, initialized to
`(RTC_INVALID_GEOMETRY_ID, RTC_INVALID_GEOMETRY_ID, 0)`
(RaycastingScene.cpp lines 302-307). -/
structure FilterState where
  geomID : ℕ
  primID : ℕ
  tfar : ℚ
deriving DecidableEq

/-- Initial per-ray filter state. -/
def initFilterState : FilterState :=
  ⟨RTC_INVALID_GEOMETRY_ID, RTC_INVALID_GEOMETRY_ID, 0⟩

/-- One candidate hit presented to the traversal filter:
`(hit.geomID, hit.primID, ray.tfar)`. -/
structure CandHit where
  geomID : ℕ
  primID : ℕ
  tfar : ℚ
deriving DecidableEq

/-- The acceptance test of `CountIntersectionsFunc`
(RaycastingScene.cpp lines 115-117):
`prev.geom != hit.geomID || (prev.prim != hit.primID && prev.t != ray.tfar)`. -/
def acceptHit (prev : FilterState) (h : CandHit) : Bool :=
  decide (prev.geomID ≠ h.geomID) ||
    (decide (prev.primID ≠ h.primID) && decide (prev.tfar ≠ h.tfar))

/-- One filter invocation for one candidate hit of one ray
(RaycastingScene.cpp lines 111-123): on acceptance the ray's crossing count
is incremented and the per-ray state is set to the candidate triple;
otherwise both are unchanged. In either case the code sets `valid[ui] = 0`
(the hit is always discarded so traversal continues), which is embedded by
folding over the whole candidate stream. -/
def countStep (s : FilterState × ℕ) (h : CandHit) : FilterState × ℕ :=
  if acceptHit s.1 h then (⟨h.geomID, h.primID, h.tfar⟩, s.2 + 1) else s

/-- Crossing count of one ray: the filter folded over the candidate hits
the provider presents along that ray, in traversal order, starting from the
zeroed count (`memset` at RaycastingScene.cpp line 300) and the initial
state. -/
def countCrossings (hits : List CandHit) : ℕ :=
  (hits.foldl countStep (initFilterState, 0)).2

/-- Acceptance rule as worded by the specification, for comparison with the
code's `acceptHit`: accepted iff the `(geom, prim)` pair differs from the
previous one and it is not the case that the primitive and the parameter
both coincide. -/
def claimAccept (prev : FilterState) (h : CandHit) : Bool :=
  decide ((prev.geomID, prev.primID) ≠ (h.geomID, h.primID)) &&
    !(decide (h.primID = prev.primID) && decide (h.tfar = prev.tfar))

/-- Filter step with the specification-worded acceptance rule. -/
def claimCountStep (s : FilterState × ℕ) (h : CandHit) : FilterState × ℕ :=
  if claimAccept s.1 h then (⟨h.geomID, h.primID, h.tfar⟩, s.2 + 1) else s

/-- Crossing count under the specification-worded acceptance rule. -/
def claimCountCrossings (hits : List CandHit) : ℕ :=
  (hits.foldl claimCountStep (initFilterState, 0)).2

/-- Primitive kinds stored in the geometry registry; the sampled code only
ever registers `RTC_GEOMETRY_TYPE_TRIANGLE`. -/
inductive GeomType where
  | triangle : GeomType
  | other : GeomType
deriving DecidableEq

/-- One entry of `geometry_ptrs`
(`std::tuple<RTCGeometryType, const void*, const void*>`): the primitive
kind plus views of the provider-owned flat vertex (float) and index
(uint32) buffers, here paired with the registered element counts. -/
structure GeomRecord where
  kind : GeomType
  numVertices : ℕ
  vertexData : ℕ → ℚ
  numTriangles : ℕ
  indexData : ℕ → ℕ

/-- Default registry entry used for `List.getD`; the code never indexes the
registry out of range (the provider only reports registered handles). -/
def defaultGeom : GeomRecord :=
  { kind := GeomType.other
    numVertices := 0
    vertexData := fun _ => 0
    numTriangles := 0
    indexData := fun _ => 0 }

/-- State of `RaycastingScene::Impl` relevant to the claims: the
`scene_committed` flag, the geometry registry `geometry_ptrs`, and a
counter of `rtcCommitScene` calls (the "rebuild counter" observable of the
spec's tests). -/
structure SceneState where
  scene_committed : Bool
  commit_count : ℕ
  geometry_ptrs : List GeomRecord

/-- A freshly constructed scene (`RaycastingScene::RaycastingScene`):
`scene_committed = false`, nothing registered, no commit yet. -/
def initScene : SceneState :=
  { scene_committed := false, commit_count := 0, geometry_ptrs := [] }

/-- The lazy-commit prologue shared by every query
(`if (!scene_committed) { rtcCommitScene(scene); scene_committed = true; }`,
RaycastingScene.cpp lines 215-218, 295-298 and 353-356). -/
def ensureCommitted (s : SceneState) : SceneState :=
  if s.scene_committed then s
  else { s with scene_committed := true, commit_count := s.commit_count + 1 }

/-- `RaycastingScene::AddTriangles(const core::Tensor&, const core::Tensor&)`
(RaycastingScene.cpp lines 401-446): after the tensor shape/dtype/device
assertions (satisfied structurally in this embedding) it clears
`scene_committed`, copies the buffers into provider-owned storage, appends
the registry record and returns the handle assigned by `rtcAttachGeometry`
(sequential). It performs no vertex-count check and never calls
`rtcCommitScene`. -/
def addTrianglesTensor (s : SceneState) (numVertices : ℕ) (vertexData : ℕ → ℚ)
    (numTriangles : ℕ) (indexData : ℕ → ℕ) : SceneState × ℕ :=
  ({ scene_committed := false
     commit_count := s.commit_count
     geometry_ptrs := s.geometry_ptrs ++
       [{ kind := GeomType.triangle
          numVertices := numVertices
          vertexData := vertexData
          numTriangles := numTriangles
          indexData := indexData }] },
   s.geometry_ptrs.length)

/-- Message of the `LogError` at RaycastingScene.cpp lines 451-453, with the
format placeholder instantiated. -/
def vertexLimitMsg : String :=
  "Cannot add mesh with more than 4294967295 vertices to the scene"

/-- `RaycastingScene::AddTriangles(const TriangleMesh&)`
(RaycastingScene.cpp lines 448-458): fails before anything is registered if
the vertex count exceeds `std::numeric_limits<uint32_t>::max()`, otherwise
delegates to the tensor overload. -/
def addTrianglesMesh (s : SceneState) (numVertices : ℕ) (vertexData : ℕ → ℚ)
    (numTriangles : ℕ) (indexData : ℕ → ℕ) : Except String (SceneState × ℕ) :=
  if UINT32_MAX < numVertices then
    Except.error vertexLimitMsg
  else
    Except.ok (addTrianglesTensor s numVertices vertexData numTriangles indexData)

/-- One candidate reported to the point-query callback:
`(args->geomID, args->primID)`. -/
structure PQCandidate where
  geomID : ℕ
  primID : ℕ
deriving DecidableEq

/-- The external acceleration provider (embree), abstracted by its
documented semantics: per populated ray record, the nearest hit
(`rtcIntersect1M` without a filter) or the stream of candidate hits
presented to the intersection filter, in traversal order
(`rtcIntersect1M` with `CountIntersectionsFunc` installed, which always
discards the hit so traversal continues); per query point, the stream of
primitive candidates presented to the point-query callback, in traversal
order (`rtcPointQuery`). -/
structure Provider where
  nearestHit : RayRecord → Option EmbreeHit
  hitStream : RayRecord → List CandHit
  pointCandidates : Vec3 → List PQCandidate

/-- Mutable state of one point query: the current `ClosestPointResult`
(point, `primID`, `geomID`, both ids initialized to
`RTC_INVALID_GEOMETRY_ID` by the constructor at RaycastingScene.cpp lines
127-130) together with the active search radius (`query.radius`,
initialized to `+inf` at line 363 and modelled as `none`). The `p` field is
left default-constructed by the code; it is modelled as the zero vector and
no claim depends on its initial value. -/
structure CPState where
  radius : Option ℚ
  p : Vec3
  primID : ℕ
  geomID : ℕ
deriving DecidableEq

/-- Initial state of one point query. -/
def initCPState : CPState :=
  { radius := none
    p := ⟨0, 0, 0⟩
    primID := RTC_INVALID_GEOMETRY_ID
    geomID := RTC_INVALID_GEOMETRY_ID }

/-- Comparison `d < args->query->radius` with the infinite initial radius. -/
def radLT (d : ℚ) : Option ℚ → Bool
  | none => true
  | some r => decide (d < r)

/-- Registry lookup `result->geometry_ptrs_ptr->operator[](geomID)`
performed by the point-query callback. -/
def candGeom (geoms : List GeomRecord) (c : PQCandidate) : GeomRecord :=
  geoms.getD c.geomID defaultGeom

/-- Vertex `k` of triangle `primID`, dereferenced through the flat index
and vertex buffers exactly as in `ClosestPointFunc`
(RaycastingScene.cpp lines 162-170):
`vertices[3 * triangles[3 * primID + k] + 0..2]`. -/
def candVertex (g : GeomRecord) (primID k : ℕ) : Vec3 :=
  ⟨g.vertexData (3 * g.indexData (3 * primID + k) + 0),
   g.vertexData (3 * g.indexData (3 * primID + k) + 1),
   g.vertexData (3 * g.indexData (3 * primID + k) + 2)⟩

/-- Exact closest point and distance for one candidate:
`p = closestPointTriangle(q, v0, v1, v2); d = distance(q, p)`.
`closestPointTriangle` lives in embree's tutorial header (external to this
repository) and no claim depends on its formula, so the combined
point/distance computation is a parameter `cpt` of the embedding. -/
def candClosest (cpt : Vec3 → Vec3 → Vec3 → Vec3 → Vec3 × ℚ)
    (geoms : List GeomRecord) (q : Vec3) (c : PQCandidate) : Vec3 × ℚ :=
  let g := candGeom geoms c
  cpt q (candVertex g c.primID 0) (candVertex g c.primID 1) (candVertex g c.primID 2)

/-- Distance component of `candClosest`. -/
def candDist (cpt : Vec3 → Vec3 → Vec3 → Vec3 → Vec3 × ℚ)
    (geoms : List GeomRecord) (q : Vec3) (c : PQCandidate) : ℚ :=
  (candClosest cpt geoms q c).2

/-- Point component of `candClosest`. -/
def candPoint (cpt : Vec3 → Vec3 → Vec3 → Vec3 → Vec3 × ℚ)
    (geoms : List GeomRecord) (q : Vec3) (c : PQCandidate) : Vec3 :=
  (candClosest cpt geoms q c).1

/-- `ClosestPointFunc` (RaycastingScene.cpp lines 140-190) for one
candidate: non-triangle kinds are skipped; for a triangle the exact
point-to-triangle distance is computed and, only if strictly smaller than
the current search radius, the radius shrinks to it and the stored point
and ids are overwritten; otherwise the state is unchanged. -/
def closestPointFunc (cpt : Vec3 → Vec3 → Vec3 → Vec3 → Vec3 × ℚ)
    (geoms : List GeomRecord) (q : Vec3) (st : CPState) (c : PQCandidate) : CPState :=
  if (candGeom geoms c).kind = GeomType.triangle then
    if radLT (candDist cpt geoms q c) st.radius then
      { radius := some (candDist cpt geoms q c)
        p := candPoint cpt geoms q c
        primID := c.primID
        geomID := c.geomID }
    else st
  else st

/-- One public closest-point result record. -/
structure CPResult where
  point : Vec3
  geomID : ℕ
  primID : ℕ
deriving DecidableEq

/-- Default element for `List.getD` indexing of closest-point results. -/
def defaultCPResult : CPResult := ⟨⟨0, 0, 0⟩, 0, 0⟩

/-- Default element for `List.getD` indexing of hit results. -/
def defaultHitResult : HitResult :=
  { t_hit := FP.num 0, geomID := 0, primID := 0, u := 0, v := 0,
    nx := FP.num 0, ny := FP.num 0, nz := FP.num 0 }

/-- `RaycastingScene::Impl::ComputeClosestPoints`
(RaycastingScene.cpp lines 348-380): lazy commit, then per query point a
fresh point query with infinite radius whose callback folds over the
candidates the provider presents, reading the final result record. -/
def sceneComputeClosestPoints (cpt : Vec3 → Vec3 → Vec3 → Vec3 → Vec3 × ℚ)
    (P : Provider) (s : SceneState) (pts : List Vec3) : SceneState × List CPResult :=
  let s1 := ensureCommitted s
  (s1,
   pts.map (fun q =>
     let st := (P.pointCandidates q).foldl (closestPointFunc cpt s.geometry_ptrs q) initCPState
     { point := st.p, geomID := st.geomID, primID := st.primID }))

/-- `RaycastingScene::Impl::CastRays` at the scene level: lazy commit, then
the chunked batch loop. -/
def sceneCastRays (P : Provider) (lineIntersection : Bool) (batchSize : ℕ)
    (s : SceneState) (rays : List Ray6) : SceneState × List HitResult :=
  (ensureCommitted s, castRaysChunked P.nearestHit lineIntersection rays batchSize)

/-- Crossing counts for a batch of unbounded rays
(`RaycastingScene::Impl::CountIntersections`, RaycastingScene.cpp lines
292-346): each ray record is populated with the raw direction and
`tfar = +inf`, and the per-ray filter state (indexed by `ray.id`, which the
code sets to the global ray index) is folded over the candidate stream. -/
def countIntersectionsImpl (P : Provider) (rays : List Ray6) : List ℕ :=
  rays.map (fun r => countCrossings (P.hitStream (makeRayRecord false r)))

/-- `RaycastingScene::Impl::CountIntersections` at the scene level. -/
def sceneCountIntersections (P : Provider) (s : SceneState) (rays : List Ray6) :
    SceneState × List ℕ :=
  (ensureCommitted s, countIntersectionsImpl P rays)

/-- `RaycastingScene::ComputeDistance` (RaycastingScene.cpp lines 536-558):
closest points, then elementwise `(closest - query).colwise().norm()`. The
Eigen column norm is the external collaborator here and is passed as the
parameter `norm3`. -/
def sceneComputeDistance (norm3 : Vec3 → ℚ) (cpt : Vec3 → Vec3 → Vec3 → Vec3 → Vec3 × ℚ)
    (P : Provider) (s : SceneState) (pts : List Vec3) : SceneState × List ℚ :=
  let r := sceneComputeClosestPoints cpt P s pts
  (r.1, List.zipWith (fun (cp : CPResult) (q : Vec3) => norm3 (sub3 cp.point q)) r.2 pts)

/-- The sign lambda of `RaycastingScene::ComputeSignedDistance`
(RaycastingScene.cpp line 588): `(x % 2) ? -1 : 1`. -/
def sdfSignExpr (x : ℕ) : ℚ := if x % 2 ≠ 0 then -1 else 1

/-- The parity lambda of `RaycastingScene::ComputeOccupancy`
(RaycastingScene.cpp line 616): `x % 2`. -/
def occExpr (x : ℕ) : ℕ := x % 2

/-- Probe-ray construction of `ComputeSignedDistance`
(RaycastingScene.cpp lines 571-580): `rays[:, 0:3] = points`,
`rays[:, 3:6] = ones`. -/
def sdfProbeRays (pts : List Vec3) : List Ray6 :=
  pts.map (fun p => { o := p, d := ⟨1, 1, 1⟩ })

/-- Probe-ray construction of `ComputeOccupancy`
(RaycastingScene.cpp lines 602-611): `rays[:, 0:3] = points`,
`rays[:, 3:6] = ones`. -/
def occProbeRays (pts : List Vec3) : List Ray6 :=
  pts.map (fun p => { o := p, d := ⟨1, 1, 1⟩ })

/-- `RaycastingScene::ComputeSignedDistance`
(RaycastingScene.cpp lines 560-591): unsigned distances, then
`CountIntersections` of the probe rays, then elementwise multiplication of
the distance by the sign lambda of the count. -/
def sceneComputeSignedDistance (norm3 : Vec3 → ℚ)
    (cpt : Vec3 → Vec3 → Vec3 → Vec3 → Vec3 × ℚ) (P : Provider) (s : SceneState)
    (pts : List Vec3) : SceneState × List ℚ :=
  let d := sceneComputeDistance norm3 cpt P s pts
  let c := sceneCountIntersections P d.1 (sdfProbeRays pts)
  (c.1, List.zipWith (fun dist cnt => dist * sdfSignExpr cnt) d.2 c.2)

/-- `RaycastingScene::ComputeOccupancy`
(RaycastingScene.cpp lines 593-618): `CountIntersections` of the probe
rays, parity lambda, cast to float. -/
def sceneComputeOccupancy (P : Provider) (s : SceneState) (pts : List Vec3) :
    SceneState × List ℚ :=
  let c := sceneCountIntersections P s (occProbeRays pts)
  (c.1, c.2.map (fun x => ((occExpr x : ℕ) : ℚ)))

/-- Provider with no registered geometry: no hits, no candidates. Used by
concrete instantiations. -/
def trivialProvider : Provider :=
  { nearestHit := fun _ => none
    hitStream := fun _ => []
    pointCandidates := fun _ => [] }

/-- Invariant used in the closest-point proofs: the active search radius is
still infinite or strictly larger than `dc`. -/
def cpAbove (dc : ℚ) (st : CPState) : Prop :=
  st.radius = none ∨ ∃ r, st.radius = some r ∧ dc < r

/-! Helper lemmas. -/

theorem natSqrtExact_spec (n r : ℕ) (h : natSqrtExact n = some r) : r * r = n := by
  have h2 := List.find?_some h
  simpa using h2

theorem ratSqrt_spec (q r : ℚ) (h : ratSqrt q = some r) : r * r = q ∧ 0 ≤ r := by
  unfold ratSqrt at h
  by_cases hq : q < 0
  · rw [if_pos hq] at h
    exact absurd h (by simp)
  · rw [if_neg hq] at h
    cases hsn : natSqrtExact q.num.toNat with
    | none => rw [hsn] at h; exact absurd h (by simp)
    | some sn =>
      cases hsd : natSqrtExact q.den with
      | none => rw [hsn, hsd] at h; exact absurd h (by simp)
      | some sd =>
        rw [hsn, hsd] at h
        have hr : r = (sn : ℚ) / (sd : ℚ) := (Option.some_inj.mp h).symm
        have h1 : sn * sn = q.num.toNat := natSqrtExact_spec _ _ hsn
        have h2 : sd * sd = q.den := natSqrtExact_spec _ _ hsd
        have hnum : 0 ≤ q.num := Rat.num_nonneg.mpr (not_lt.mp hq)
        have hsn2 : ((sn : ℚ)) * (sn : ℚ) = (q.num : ℚ) := by
          have := congrArg (fun m : ℕ => (m : ℚ)) h1
          push_cast at this
          rw [this]
          exact_mod_cast congrArg (fun m : ℤ => (m : ℚ)) (Int.toNat_of_nonneg hnum)
        have hsd2 : ((sd : ℚ)) * (sd : ℚ) = (q.den : ℚ) := by
          have := congrArg (fun m : ℕ => (m : ℚ)) h2
          push_cast at this
          rw [this]
        have hden : ((q.den : ℚ)) ≠ 0 := by
          exact_mod_cast q.den_nz
        have hsd0 : ((sd : ℚ)) ≠ 0 := by
          intro h0
          rw [h0, mul_zero] at hsd2
          exact hden hsd2.symm
        constructor
        · rw [hr, div_mul_div_comm, hsn2, hsd2, Rat.num_div_den]
        · rw [hr]
          positivity

theorem getD_map_of_lt {α β : Type} (f : α → β) (l : List α) (i : ℕ) (d1 : α) (d2 : β)
    (h : i < l.length) : (l.map f).getD i d2 = f (l.getD i d1) := by
  induction l generalizing i with
  | nil => simp at h
  | cons a t ih =>
    cases i with
    | zero => simp
    | succ j =>
      simp only [List.map_cons, List.getD_cons_succ]
      exact ih j (by simpa using h)

theorem getD_zipWith_of_lt {α β γ : Type} (f : α → β → γ) (l1 : List α) (l2 : List β)
    (i : ℕ) (d1 : α) (d2 : β) (d3 : γ) (h1 : i < l1.length) (h2 : i < l2.length) :
    (List.zipWith f l1 l2).getD i d3 = f (l1.getD i d1) (l2.getD i d2) := by
  induction l1 generalizing l2 i with
  | nil => simp at h1
  | cons a t ih =>
    cases l2 with
    | nil => simp at h2
    | cons b t2 =>
      cases i with
      | zero => simp
      | succ j =>
        simp only [List.zipWith_cons_cons, List.getD_cons_succ]
        exact ih t2 j (by simpa using h1) (by simpa using h2)

theorem map_getD_range {α β : Type} (f : α → β) (l : List α) (d : α) :
    (List.range l.length).map (fun i => f (l.getD i d)) = l.map f := by
  induction l with
  | nil => simp
  | cons a t ih =>
    rw [List.length_cons, List.range_succ_eq_map, List.map_cons, List.map_map]
    have h1 : ((fun i => f ((a :: t).getD i d)) ∘ Nat.succ) = (fun i => f (t.getD i d)) := by
      funext i
      simp
    rw [h1, ih]
    simp

theorem divUp_mul_ge (n c : ℕ) (hc : 0 < c) : n ≤ divUp n c * c := by
  unfold divUp
  have h1 := Nat.div_add_mod' (n + c - 1) c
  have h2 := Nat.mod_lt (n + c - 1) hc
  omega

theorem chunk_flatMap {α : Type} (f : ℕ → α) (n c : ℕ) (hc : 0 < c) :
    (List.range (divUp n c)).flatMap
        (fun b => (List.range (min n ((b + 1) * c) - b * c)).map (fun j => f (b * c + j))) =
      (List.range n).map f := by
  have aux : ∀ k : ℕ,
      (List.range k).flatMap
          (fun b => (List.range (min n ((b + 1) * c) - b * c)).map (fun j => f (b * c + j))) =
        (List.range (min n (k * c))).map f := by
    intro k
    induction k with
    | zero => simp
    | succ k ih =>
      rw [List.range_succ, List.flatMap_append, ih]
      simp only [List.flatMap_cons, List.flatMap_nil, List.append_nil]
      have hsucc : (k + 1) * c = k * c + c := by ring
      by_cases hk : n ≤ k * c
      · have e1 : min n (k * c) = n := min_eq_left hk
        have e2 : min n ((k + 1) * c) = n := min_eq_left (by omega)
        rw [e1, e2]
        have e3 : n - k * c = 0 := by omega
        rw [e3]
        simp
      · push_neg at hk
        have e1 : min n (k * c) = k * c := min_eq_right (le_of_lt hk)
        have e2 : k * c ≤ min n ((k + 1) * c) :=
          le_min (le_of_lt hk) (by omega)
        rw [e1]
        have e3 : (List.range (min n ((k + 1) * c))).map f =
            (List.range (k * c)).map f ++
              ((List.range (min n ((k + 1) * c) - k * c)).map (fun x => k * c + x)).map f := by
          conv_lhs => rw [show min n ((k + 1) * c) = k * c + (min n ((k + 1) * c) - k * c) by omega,
            List.range_add (k * c) (min n ((k + 1) * c) - k * c)]
          rw [List.map_append]
        rw [e3, List.map_map]
        rfl
  rw [aux (divUp n c)]
  rw [Nat.min_eq_left (divUp_mul_ge n c hc)]

theorem castRaysChunked_eq_map (nh : RayRecord → Option EmbreeHit) (line : Bool)
    (rays : List Ray6) (bs : ℕ) (hbs : 0 < bs) :
    castRaysChunked nh line rays bs = rays.map (castOneRay nh line) := by
  by_cases h0 : rays = []
  · subst h0
    simp [castRaysChunked, divUp]
  · have hn : 0 < rays.length := List.length_pos.mpr h0
    have hc : 0 < min rays.length bs := lt_min hn hbs
    have main := chunk_flatMap (fun i => castOneRay nh line (rays.getD i defaultRay))
      rays.length (min rays.length bs) hc
    rw [map_getD_range (castOneRay nh line) rays defaultRay] at main
    calc castRaysChunked nh line rays bs
        = (List.range (divUp rays.length (min rays.length bs))).flatMap
            (fun b => (List.range (min rays.length ((b + 1) * min rays.length bs)
                - b * min rays.length bs)).map
              (fun j => castOneRay nh line
                (rays.getD (b * min rays.length bs + j) defaultRay))) := by
          simp only [castRaysChunked, List.map_map]
          rfl
      _ = rays.map (castOneRay nh line) := main

theorem ensureCommitted_idem (s : SceneState) :
    ensureCommitted (ensureCommitted s) = ensureCommitted s := by
  unfold ensureCommitted
  by_cases h : s.scene_committed
  · simp [h]
  · simp [h]

theorem cpStep_skip (cpt : Vec3 → Vec3 → Vec3 → Vec3 → Vec3 × ℚ) (geoms : List GeomRecord)
    (q : Vec3) (st : CPState) (c : PQCandidate)
    (h : ¬ (candGeom geoms c).kind = GeomType.triangle) :
    closestPointFunc cpt geoms q st c = st := by
  simp [closestPointFunc, h]

theorem cpStep_rejected (cpt : Vec3 → Vec3 → Vec3 → Vec3 → Vec3 × ℚ) (geoms : List GeomRecord)
    (q : Vec3) (st : CPState) (c : PQCandidate)
    (h : radLT (candDist cpt geoms q c) st.radius = false) :
    closestPointFunc cpt geoms q st c = st := by
  simp [closestPointFunc, h]

theorem cpStep_accepted (cpt : Vec3 → Vec3 → Vec3 → Vec3 → Vec3 × ℚ) (geoms : List GeomRecord)
    (q : Vec3) (st : CPState) (c : PQCandidate)
    (h1 : (candGeom geoms c).kind = GeomType.triangle)
    (h2 : radLT (candDist cpt geoms q c) st.radius = true) :
    closestPointFunc cpt geoms q st c =
      { radius := some (candDist cpt geoms q c)
        p := candPoint cpt geoms q c
        primID := c.primID
        geomID := c.geomID } := by
  simp [closestPointFunc, h1, h2]

theorem cpStep_radius_some (cpt : Vec3 → Vec3 → Vec3 → Vec3 → Vec3 × ℚ)
    (geoms : List GeomRecord) (q : Vec3) (st : CPState) (c : PQCandidate) (r : ℚ)
    (h : st.radius = some r) :
    ∃ r2, (closestPointFunc cpt geoms q st c).radius = some r2 := by
  by_cases h1 : (candGeom geoms c).kind = GeomType.triangle
  · cases h2 : radLT (candDist cpt geoms q c) st.radius with
    | false => rw [cpStep_rejected cpt geoms q st c h2]; exact ⟨r, h⟩
    | true => rw [cpStep_accepted cpt geoms q st c h1 h2]; exact ⟨candDist cpt geoms q c, rfl⟩
  · rw [cpStep_skip cpt geoms q st c h1]; exact ⟨r, h⟩

theorem cpFold_radius_some (cpt : Vec3 → Vec3 → Vec3 → Vec3 → Vec3 × ℚ)
    (geoms : List GeomRecord) (q : Vec3) :
    ∀ (cs : List PQCandidate) (st : CPState) (r : ℚ), st.radius = some r →
      ∃ r2, (cs.foldl (closestPointFunc cpt geoms q) st).radius = some r2 := by
  intro cs
  induction cs with
  | nil => intro st r h; exact ⟨r, h⟩
  | cons c cs ih =>
    intro st r h
    obtain ⟨r2, h2⟩ := cpStep_radius_some cpt geoms q st c r h
    rw [List.foldl_cons]
    exact ih _ r2 h2

theorem cpFold_radius_none_eq (cpt : Vec3 → Vec3 → Vec3 → Vec3 → Vec3 × ℚ)
    (geoms : List GeomRecord) (q : Vec3) :
    ∀ (cs : List PQCandidate) (st : CPState),
      (cs.foldl (closestPointFunc cpt geoms q) st).radius = none →
      cs.foldl (closestPointFunc cpt geoms q) st = st := by
  intro cs
  induction cs with
  | nil => intro st _; rfl
  | cons c cs ih =>
    intro st hnone
    rw [List.foldl_cons] at hnone ⊢
    have hstep : closestPointFunc cpt geoms q st c = st := by
      by_cases h1 : (candGeom geoms c).kind = GeomType.triangle
      · cases h2 : radLT (candDist cpt geoms q c) st.radius with
        | false => exact cpStep_rejected cpt geoms q st c h2
        | true =>
          exfalso
          have h3 : (closestPointFunc cpt geoms q st c).radius =
              some (candDist cpt geoms q c) := by
            rw [cpStep_accepted cpt geoms q st c h1 h2]
          obtain ⟨r2, hr2⟩ := cpFold_radius_some cpt geoms q cs _ _ h3
          rw [hr2] at hnone
          exact Option.noConfusion hnone
      · exact cpStep_skip cpt geoms q st c h1
    rw [hstep] at hnone ⊢
    exact ih st hnone

theorem cpStep_reject_of_not_lt (cpt : Vec3 → Vec3 → Vec3 → Vec3 → Vec3 × ℚ)
    (geoms : List GeomRecord) (q : Vec3) (st : CPState) (c : PQCandidate) (r : ℚ)
    (hr : st.radius = some r)
    (hd : (candGeom geoms c).kind = GeomType.triangle → ¬ candDist cpt geoms q c < r) :
    closestPointFunc cpt geoms q st c = st := by
  by_cases h1 : (candGeom geoms c).kind = GeomType.triangle
  · have hb : radLT (candDist cpt geoms q c) st.radius = false := by
      rw [hr]
      simp only [radLT, decide_eq_false_iff_not]
      exact hd h1
    exact cpStep_rejected cpt geoms q st c hb
  · exact cpStep_skip cpt geoms q st c h1

theorem cpFold_reject (cpt : Vec3 → Vec3 → Vec3 → Vec3 → Vec3 × ℚ)
    (geoms : List GeomRecord) (q : Vec3) :
    ∀ (cs : List PQCandidate) (st : CPState) (r : ℚ), st.radius = some r →
      (∀ c ∈ cs, (candGeom geoms c).kind = GeomType.triangle →
        ¬ candDist cpt geoms q c < r) →
      cs.foldl (closestPointFunc cpt geoms q) st = st := by
  intro cs
  induction cs with
  | nil => intro st r _ _; rfl
  | cons c cs ih =>
    intro st r hr hall
    rw [List.foldl_cons]
    have hstep : closestPointFunc cpt geoms q st c = st :=
      cpStep_reject_of_not_lt cpt geoms q st c r hr (hall c (List.mem_cons_self c cs))
    rw [hstep]
    exact ih st r hr (fun c' hc' => hall c' (List.mem_cons_of_mem c hc'))

theorem cpFold_above (cpt : Vec3 → Vec3 → Vec3 → Vec3 → Vec3 × ℚ)
    (geoms : List GeomRecord) (q : Vec3) (dc : ℚ) :
    ∀ (cs : List PQCandidate) (st : CPState),
      (∀ c ∈ cs, (candGeom geoms c).kind = GeomType.triangle →
        dc < candDist cpt geoms q c) →
      cpAbove dc st → cpAbove dc (cs.foldl (closestPointFunc cpt geoms q) st) := by
  intro cs
  induction cs with
  | nil => intro st _ h; exact h
  | cons c cs ih =>
    intro st hall hst
    rw [List.foldl_cons]
    have hnext : cpAbove dc (closestPointFunc cpt geoms q st c) := by
      by_cases h1 : (candGeom geoms c).kind = GeomType.triangle
      · cases h2 : radLT (candDist cpt geoms q c) st.radius with
        | false => rw [cpStep_rejected cpt geoms q st c h2]; exact hst
        | true =>
          rw [cpStep_accepted cpt geoms q st c h1 h2]
          exact Or.inr ⟨candDist cpt geoms q c, rfl, hall c (List.mem_cons_self c cs) h1⟩
      · rw [cpStep_skip cpt geoms q st c h1]; exact hst
    exact ih (closestPointFunc cpt geoms q st c)
      (fun c' hc' => hall c' (List.mem_cons_of_mem c hc')) hnext

theorem normalizeNg_zero : normalizeNg 0 0 0 = (FP.nan, FP.nan, FP.nan) := by
  have h0 : (0 * 0 + 0 * 0 + 0 * 0 : ℚ) = 0 := by norm_num
  have hs : ratSqrt (0 : ℚ) = some 0 := by
    have h1 : ratSqrt (0 : ℚ) = some (((0 : ℕ) : ℚ) / ((1 : ℕ) : ℚ)) := rfl
    rw [h1]
    norm_num
  simp only [normalizeNg, h0]
  rw [show fpSqrt (FP.num 0) = FP.num 0 by simp [fpSqrt, hs]]
  rw [show fpDiv (FP.num 1) (FP.num 0) = FP.inf by norm_num [fpDiv]]
  simp [fpMul]

theorem normalizeNg_exact (x y z r : ℚ)
    (hr : ratSqrt (x * x + y * y + z * z) = some r)
    (hs : x * x + y * y + z * z ≠ 0) :
    normalizeNg x y z =
      (FP.num (x * (1 / r)), FP.num (y * (1 / r)), FP.num (z * (1 / r))) ∧
    (x * (1 / r)) * (x * (1 / r)) + (y * (1 / r)) * (y * (1 / r)) +
      (z * (1 / r)) * (z * (1 / r)) = 1 := by
  obtain ⟨hrr, hrpos⟩ := ratSqrt_spec _ _ hr
  have hr0 : r ≠ 0 := by
    intro h0
    rw [h0, mul_zero] at hrr
    exact hs hrr.symm
  constructor
  · simp only [normalizeNg]
    rw [show fpSqrt (FP.num (x * x + y * y + z * z)) = FP.num r by simp [fpSqrt, hr]]
    rw [show fpDiv (FP.num 1) (FP.num r) = FP.num (1 / r) by simp [fpDiv, hr0]]
    simp [fpMul]
  · field_simp
    linear_combination -hrr

/-! Claim theorems. -/

/-- Claim C1 (amended): in the crossing-count traversal filter, a candidate
hit is recorded as a new crossing — the ray's count is incremented and the
per-ray `(last_geom, last_prim, last_t)` state is updated to the candidate
triple — exactly when the candidate's `geomID` differs from the stored one,
or both its `primID` and its `tfar` differ from the stored ones; in every
other case count and state are unchanged. -/
theorem countIntersections_accept_rule (st : FilterState) (n : ℕ) (h : CandHit) :
    countStep (st, n) h =
      if st.geomID ≠ h.geomID ∨ (st.primID ≠ h.primID ∧ st.tfar ≠ h.tfar)
      then (⟨h.geomID, h.primID, h.tfar⟩, n + 1)
      else (st, n) := by
  by_cases h1 : st.geomID = h.geomID <;> by_cases h2 : st.primID = h.primID <;>
    by_cases h3 : st.tfar = h.tfar <;>
    simp [countStep, acceptHit, h1, h2, h3]

/-- Claim C1 counterexample: with per-ray state `(geom, prim, t) = (1, 5, 2)`,
the candidate `(geom, prim, t) = (2, 5, 2)` (different geometry, same
primitive id, same `t`) is accepted by the code's filter, while the claim's
rule `(pair differs) && !(same prim && same t)` rejects it; over the
corresponding two-hit traversal the code counts 2 crossings, the claim's
rule 1. -/
theorem countIntersections_claim_counterexample :
    acceptHit ⟨1, 5, 2⟩ ⟨2, 5, 2⟩ = true ∧
    claimAccept ⟨1, 5, 2⟩ ⟨2, 5, 2⟩ = false ∧
    countCrossings [⟨1, 5, 2⟩, ⟨2, 5, 2⟩] = 2 ∧
    claimCountCrossings [⟨1, 5, 2⟩, ⟨2, 5, 2⟩] = 1 :=
  ⟨by decide, by decide, by decide, by decide⟩

/-- Claim C2 (amended): for a hit, `CastRays` reports the geometric normal
scaled by `1/sqrt(‖Ng‖²)`; when the squared norm is nonzero (stated here
for radicands with an exact rational root, which the float code
approximates) the reported normal has exactly unit length, but the
divide-by-zero of a degenerate zero-length normal is NOT guarded:
`1.f/sqrt(0) = +inf` and `0 * inf = NaN`, so all three components come out
NaN — non-finite — rather than the zero vector. -/
theorem castRays_normal_normalization (x y z r : ℚ)
    (hr : ratSqrt (x * x + y * y + z * z) = some r)
    (hs : x * x + y * y + z * z ≠ 0) :
    (normalizeNg x y z =
        (FP.num (x * (1 / r)), FP.num (y * (1 / r)), FP.num (z * (1 / r))) ∧
      (x * (1 / r)) * (x * (1 / r)) + (y * (1 / r)) * (y * (1 / r)) +
        (z * (1 / r)) * (z * (1 / r)) = 1) ∧
    normalizeNg 0 0 0 = (FP.nan, FP.nan, FP.nan) :=
  ⟨normalizeNg_exact x y z r hr hs, normalizeNg_zero⟩

theorem castRays_normal_normalization_witness :
    ratSqrt (0 * 0 + 0 * 0 + 2 * 2) = some 2 ∧ (0 * 0 + 0 * 0 + 2 * 2 : ℚ) ≠ 0 ∧
    ((normalizeNg 0 0 2 =
        (FP.num (0 * (1 / 2)), FP.num (0 * (1 / 2)), FP.num (2 * (1 / 2))) ∧
      ((0 : ℚ) * (1 / 2)) * (0 * (1 / 2)) + ((0 : ℚ) * (1 / 2)) * (0 * (1 / 2)) +
        ((2 : ℚ) * (1 / 2)) * (2 * (1 / 2)) = 1) ∧
      normalizeNg 0 0 0 = (FP.nan, FP.nan, FP.nan)) := by
  have h1 : ratSqrt (0 * 0 + 0 * 0 + 2 * 2) = some 2 := by
    rw [show (0 * 0 + 0 * 0 + 2 * 2 : ℚ) = 4 by norm_num]
    rw [show ratSqrt (4 : ℚ) = some (((2 : ℕ) : ℚ) / ((1 : ℕ) : ℚ)) from rfl]
    norm_num
  have h2 : (0 * 0 + 0 * 0 + 2 * 2 : ℚ) ≠ 0 := by norm_num
  exact ⟨h1, h2, castRays_normal_normalization 0 0 2 2 h1 h2⟩

/-- Claim C2 counterexample: a provider hit whose geometric normal is the
zero vector produces NaN normal components through the `CastRays`
translation, and NaN differs from the zero value the claim promises. -/
theorem castRays_degenerate_normal_counterexample :
    (castOneRay (fun _ => some ⟨1, 0, 0, 0, 0, 0, 0, 0⟩) false defaultRay).nx = FP.nan ∧
    (castOneRay (fun _ => some ⟨1, 0, 0, 0, 0, 0, 0, 0⟩) false defaultRay).ny = FP.nan ∧
    (castOneRay (fun _ => some ⟨1, 0, 0, 0, 0, 0, 0, 0⟩) false defaultRay).nz = FP.nan ∧
    FP.nan ≠ FP.num 0 := by
  refine ⟨?_, ?_, ?_, by decide⟩
  · show (normalizeNg 0 0 0).1 = FP.nan
    rw [normalizeNg_zero]
  · show (normalizeNg 0 0 0).2.1 = FP.nan
    rw [normalizeNg_zero]
  · show (normalizeNg 0 0 0).2.2 = FP.nan
    rw [normalizeNg_zero]

/-- Claim C3 counterexample: registering a vertex buffer whose vertex count
exceeds the 32-bit handle width through the public tensor overload
`AddTriangles(vertices, triangles)` raises no error: the geometry is
appended to the registry. -/
theorem addTriangles_tensor_counterexample :
    (addTrianglesTensor initScene (UINT32_MAX + 1) (fun _ => 0) 1
        (fun _ => 0)).1.geometry_ptrs.length = 1 ∧
    UINT32_MAX < UINT32_MAX + 1 := by
  constructor
  · simp [addTrianglesTensor, initScene]
  · omega

/-- Claim C3 (amended): only the `AddTriangles(const TriangleMesh&)` entry
point enforces the 32-bit vertex-count limit — above it the call fails with
the `LogError` before anything is registered — while the public tensor
overload `AddTriangles(vertices, triangles)` performs no vertex-count check
and registers the geometry (appending the record and clearing the committed
flag). -/
theorem addTriangles_vertex_limit_mesh_only (s : SceneState) (nV : ℕ) (vd : ℕ → ℚ)
    (nT : ℕ) (td : ℕ → ℕ) (h : UINT32_MAX < nV) :
    addTrianglesMesh s nV vd nT td = Except.error vertexLimitMsg ∧
    (addTrianglesTensor s nV vd nT td).1.geometry_ptrs.length =
      s.geometry_ptrs.length + 1 ∧
    (addTrianglesTensor s nV vd nT td).1.scene_committed = false := by
  refine ⟨?_, ?_, rfl⟩
  · simp [addTrianglesMesh, h]
  · simp [addTrianglesTensor]

theorem addTriangles_vertex_limit_witness :
    UINT32_MAX < UINT32_MAX + 1 ∧
    (addTrianglesMesh initScene (UINT32_MAX + 1) (fun _ => 0) 1 (fun _ => 0) =
        Except.error vertexLimitMsg ∧
      (addTrianglesTensor initScene (UINT32_MAX + 1) (fun _ => 0) 1
          (fun _ => 0)).1.geometry_ptrs.length = initScene.geometry_ptrs.length + 1 ∧
      (addTrianglesTensor initScene (UINT32_MAX + 1) (fun _ => 0) 1
          (fun _ => 0)).1.scene_committed = false) :=
  ⟨by omega, addTriangles_vertex_limit_mesh_only initScene (UINT32_MAX + 1) (fun _ => 0) 1
    (fun _ => 0) (by omega)⟩

/-- Claim C4: for every provider, ray sequence and positive batch size, the
chunked `CastRays` loop produces outputs in exactly the input order and
elementwise identical to the unchunked computation (the elementwise
translation of the provider's nearest hit, one per input ray in input
order) — and hence identical to a single-chunk run whose batch size equals
the input length: chunk boundaries are invisible to the caller. -/
theorem castRays_chunk_invisible (P : Provider) (line : Bool) (rays : List Ray6)
    (bs : ℕ) (hbs : 0 < bs) :
    castRaysChunked P.nearestHit line rays bs =
      rays.map (castOneRay P.nearestHit line) ∧
    castRaysChunked P.nearestHit line rays bs =
      castRaysChunked P.nearestHit line rays rays.length := by
  refine ⟨castRaysChunked_eq_map P.nearestHit line rays bs hbs, ?_⟩
  by_cases h0 : rays = []
  · subst h0
    simp [castRaysChunked, divUp]
  · have hn : 0 < rays.length := List.length_pos.mpr h0
    rw [castRaysChunked_eq_map P.nearestHit line rays bs hbs,
        castRaysChunked_eq_map P.nearestHit line rays rays.length hn]

theorem castRays_chunk_invisible_witness :
    castRaysChunked trivialProvider.nearestHit false [defaultRay, defaultRay, defaultRay] 1 =
      [defaultRay, defaultRay, defaultRay].map (castOneRay trivialProvider.nearestHit false) ∧
    castRaysChunked trivialProvider.nearestHit false [defaultRay, defaultRay, defaultRay] 1 =
      castRaysChunked trivialProvider.nearestHit false [defaultRay, defaultRay, defaultRay]
        [defaultRay, defaultRay, defaultRay].length :=
  castRays_chunk_invisible trivialProvider false [defaultRay, defaultRay, defaultRay] 1
    (by decide)

/-- Claim C5: registering geometry clears the committed flag and never
commits (the commit counter is unchanged); every query's scene-state
transition is exactly `ensureCommitted`, which commits precisely when the
flag is clear and then sets it, and which is idempotent; hence a second
query on the unmodified scene performs no further rebuild. -/
theorem scene_commit_invariant (P : Provider)
    (cpt : Vec3 → Vec3 → Vec3 → Vec3 → Vec3 × ℚ) (norm3 : Vec3 → ℚ)
    (line : Bool) (bs : ℕ) (s : SceneState) (nV : ℕ) (vd : ℕ → ℚ) (nT : ℕ)
    (td : ℕ → ℕ) (rays rays2 : List Ray6) (pts : List Vec3) :
    ((addTrianglesTensor s nV vd nT td).1.scene_committed = false ∧
     (addTrianglesTensor s nV vd nT td).1.commit_count = s.commit_count) ∧
    ((ensureCommitted s).scene_committed = true ∧
     (ensureCommitted s).commit_count =
       (if s.scene_committed then s.commit_count else s.commit_count + 1) ∧
     ensureCommitted (ensureCommitted s) = ensureCommitted s) ∧
    ((sceneCastRays P line bs s rays).1 = ensureCommitted s ∧
     (sceneCountIntersections P s rays).1 = ensureCommitted s ∧
     (sceneComputeClosestPoints cpt P s pts).1 = ensureCommitted s ∧
     (sceneComputeDistance norm3 cpt P s pts).1 = ensureCommitted s ∧
     (sceneComputeSignedDistance norm3 cpt P s pts).1 = ensureCommitted s ∧
     (sceneComputeOccupancy P s pts).1 = ensureCommitted s) ∧
    (sceneCastRays P line bs (sceneCastRays P line bs s rays).1 rays2).1.commit_count =
      (sceneCastRays P line bs s rays).1.commit_count := by
  refine ⟨⟨rfl, rfl⟩, ⟨?_, ?_, ensureCommitted_idem s⟩, ⟨rfl, rfl, rfl, rfl, ?_, rfl⟩, ?_⟩
  · unfold ensureCommitted
    by_cases h : s.scene_committed <;> simp [h]
  · unfold ensureCommitted
    by_cases h : s.scene_committed <;> simp [h]
  · show ensureCommitted (ensureCommitted s) = ensureCommitted s
    exact ensureCommitted_idem s
  · show (ensureCommitted (ensureCommitted s)).commit_count =
      (ensureCommitted s).commit_count
    rw [ensureCommitted_idem s]

/-- Claim C7: in UNBOUNDED mode (`LINE_INTERSECTION = false`), every ray of
a `CastRays` batch for which the provider reports no hit carries the miss
sentinel in the output: both ids equal `RTC_INVALID_GEOMETRY_ID`, `t_hit`
equals the `+inf` the loop wrote into the initial `tfar` (untouched on a
miss), and the uv and normal fields are zeroed. -/
theorem castRays_miss_sentinel (P : Provider) (rays : List Ray6) (bs i : ℕ)
    (hbs : 0 < bs) (hi : i < rays.length)
    (hmiss : P.nearestHit (makeRayRecord false (rays.getD i defaultRay)) = none) :
    (castRaysChunked P.nearestHit false rays bs).getD i defaultHitResult =
      { t_hit := FP.inf
        geomID := RTC_INVALID_GEOMETRY_ID
        primID := RTC_INVALID_GEOMETRY_ID
        u := 0
        v := 0
        nx := FP.num 0
        ny := FP.num 0
        nz := FP.num 0 } := by
  rw [castRaysChunked_eq_map P.nearestHit false rays bs hbs,
      getD_map_of_lt (castOneRay P.nearestHit false) rays i defaultRay defaultHitResult hi]
  unfold castOneRay
  rw [hmiss]
  rfl

theorem castRays_miss_sentinel_witness :
    0 < 1 ∧ 0 < [defaultRay].length ∧
    trivialProvider.nearestHit (makeRayRecord false ([defaultRay].getD 0 defaultRay)) = none ∧
    (castRaysChunked trivialProvider.nearestHit false [defaultRay] 1).getD 0 defaultHitResult =
      { t_hit := FP.inf
        geomID := RTC_INVALID_GEOMETRY_ID
        primID := RTC_INVALID_GEOMETRY_ID
        u := 0
        v := 0
        nx := FP.num 0
        ny := FP.num 0
        nz := FP.num 0 } :=
  ⟨by decide, by decide, rfl,
   castRays_miss_sentinel trivialProvider [defaultRay] 1 0 (by decide) (by decide) rfl⟩

/-- Claim C6: `ComputeSignedDistance` returns per point the unsigned
distance — the norm of the difference between the query point and its
closest surface point — multiplied by −1 when the crossing count of the
probe ray from the point in the fixed unnormalized direction `(1, 1, 1)` is
odd and by +1 when it is even. The hypothesis records that the external
Eigen column norm is invariant under negating its argument (the code
computes `closest − point`, the claim words it as `point − closest`). -/
theorem computeSignedDistance_sign_rule (norm3 : Vec3 → ℚ)
    (cpt : Vec3 → Vec3 → Vec3 → Vec3 → Vec3 × ℚ) (P : Provider) (s : SceneState)
    (pts : List Vec3) (i : ℕ)
    (hsym : ∀ a b : Vec3, norm3 (sub3 a b) = norm3 (sub3 b a))
    (hi : i < pts.length) :
    sdfProbeRays pts = pts.map (fun p => Ray6.mk p ⟨1, 1, 1⟩) ∧
    (sceneComputeSignedDistance norm3 cpt P s pts).2.getD i 0 =
      (if (countIntersectionsImpl P (sdfProbeRays pts)).getD i 0 % 2 ≠ 0
        then -1 else 1) *
      norm3 (sub3 (pts.getD i ⟨0, 0, 0⟩)
        ((sceneComputeClosestPoints cpt P s pts).2.getD i defaultCPResult).point) := by
  refine ⟨rfl, ?_⟩
  have hcps : (sceneComputeClosestPoints cpt P s pts).2.length = pts.length := by
    simp [sceneComputeClosestPoints]
  have hcnt : (countIntersectionsImpl P (sdfProbeRays pts)).length = pts.length := by
    simp [countIntersectionsImpl, sdfProbeRays]
  have hdist : (List.zipWith (fun (cp : CPResult) (q : Vec3) => norm3 (sub3 cp.point q))
      (sceneComputeClosestPoints cpt P s pts).2 pts).length = pts.length := by
    rw [List.length_zipWith, hcps, min_self]
  have e1 : (sceneComputeSignedDistance norm3 cpt P s pts).2 =
      List.zipWith (fun dist cnt => dist * sdfSignExpr cnt)
        (List.zipWith (fun (cp : CPResult) (q : Vec3) => norm3 (sub3 cp.point q))
          (sceneComputeClosestPoints cpt P s pts).2 pts)
        (countIntersectionsImpl P (sdfProbeRays pts)) := rfl
  rw [e1,
    getD_zipWith_of_lt (fun dist cnt => dist * sdfSignExpr cnt) _ _ i 0 0 0
      (by rw [hdist]; exact hi) (by rw [hcnt]; exact hi),
    getD_zipWith_of_lt (fun (cp : CPResult) (q : Vec3) => norm3 (sub3 cp.point q)) _ _ i
      defaultCPResult ⟨0, 0, 0⟩ 0 (by rw [hcps]; exact hi) hi]
  rw [hsym]
  rw [mul_comm]
  rfl

theorem computeSignedDistance_sign_rule_witness :
    sdfProbeRays [(⟨0, 0, 0⟩ : Vec3)] =
      ([(⟨0, 0, 0⟩ : Vec3)]).map (fun p => Ray6.mk p ⟨1, 1, 1⟩) ∧
    (sceneComputeSignedDistance (fun _ => 0) (fun _ _ _ _ => (⟨0, 0, 0⟩, 0))
        trivialProvider initScene [(⟨0, 0, 0⟩ : Vec3)]).2.getD 0 0 =
      (if (countIntersectionsImpl trivialProvider
            (sdfProbeRays [(⟨0, 0, 0⟩ : Vec3)])).getD 0 0 % 2 ≠ 0
        then -1 else 1) *
      (fun _ : Vec3 => (0 : ℚ)) (sub3 (([(⟨0, 0, 0⟩ : Vec3)]).getD 0 ⟨0, 0, 0⟩)
        ((sceneComputeClosestPoints (fun _ _ _ _ => (⟨0, 0, 0⟩, 0)) trivialProvider
            initScene [(⟨0, 0, 0⟩ : Vec3)]).2.getD 0 defaultCPResult).point) :=
  computeSignedDistance_sign_rule (fun _ => 0) (fun _ _ _ _ => (⟨0, 0, 0⟩, 0))
    trivialProvider initScene [(⟨0, 0, 0⟩ : Vec3)] 0 (fun _ _ => rfl) (by decide)

/-- Claim C8: `ComputeOccupancy` and `ComputeSignedDistance` build probe
rays through definitionally equal constructions (origin at the query point,
direction `(1, 1, 1)`), the occupancy output is the crossing count modulo 2
cast to float, and it equals 1 exactly when the sign multiplier that
`ComputeSignedDistance` applies to that same count is −1. -/
theorem occupancy_signedDistance_agreement (P : Provider) (s : SceneState)
    (pts : List Vec3) (i : ℕ) (hi : i < pts.length) :
    occProbeRays pts = sdfProbeRays pts ∧
    (sceneComputeOccupancy P s pts).2.getD i 0 =
      (((countIntersectionsImpl P (sdfProbeRays pts)).getD i 0 % 2 : ℕ) : ℚ) ∧
    ((sceneComputeOccupancy P s pts).2.getD i 0 = 1 ↔
      sdfSignExpr ((countIntersectionsImpl P (sdfProbeRays pts)).getD i 0) = -1) := by
  have hcnt : (countIntersectionsImpl P (occProbeRays pts)).length = pts.length := by
    simp [countIntersectionsImpl, occProbeRays]
  have e1 : (sceneComputeOccupancy P s pts).2 =
      (countIntersectionsImpl P (occProbeRays pts)).map
        (fun x => ((occExpr x : ℕ) : ℚ)) := rfl
  have e2 : (sceneComputeOccupancy P s pts).2.getD i 0 =
      (((countIntersectionsImpl P (sdfProbeRays pts)).getD i 0 % 2 : ℕ) : ℚ) := by
    rw [e1, getD_map_of_lt (fun x => ((occExpr x : ℕ) : ℚ)) _ i 0 0
      (by rw [hcnt]; exact hi)]
    rfl
  refine ⟨rfl, e2, ?_⟩
  rw [e2]
  constructor
  · intro h1
    have h2 : (countIntersectionsImpl P (sdfProbeRays pts)).getD i 0 % 2 = 1 := by
      exact_mod_cast h1
    unfold sdfSignExpr
    rw [h2]
    norm_num
  · intro h1
    by_cases h2 : (countIntersectionsImpl P (sdfProbeRays pts)).getD i 0 % 2 = 0
    · exfalso
      have h4 : sdfSignExpr ((countIntersectionsImpl P (sdfProbeRays pts)).getD i 0) =
          (1 : ℚ) := by
        unfold sdfSignExpr
        rw [h2]
        norm_num
      rw [h4] at h1
      norm_num at h1
    · have h3 : (countIntersectionsImpl P (sdfProbeRays pts)).getD i 0 % 2 = 1 := by
        omega
      rw [h3]
      norm_num

theorem occupancy_signedDistance_agreement_witness :
    occProbeRays [(⟨0, 0, 0⟩ : Vec3)] = sdfProbeRays [(⟨0, 0, 0⟩ : Vec3)] ∧
    (sceneComputeOccupancy trivialProvider initScene [(⟨0, 0, 0⟩ : Vec3)]).2.getD 0 0 =
      (((countIntersectionsImpl trivialProvider
          (sdfProbeRays [(⟨0, 0, 0⟩ : Vec3)])).getD 0 0 % 2 : ℕ) : ℚ) ∧
    ((sceneComputeOccupancy trivialProvider initScene [(⟨0, 0, 0⟩ : Vec3)]).2.getD 0 0 = 1 ↔
      sdfSignExpr ((countIntersectionsImpl trivialProvider
          (sdfProbeRays [(⟨0, 0, 0⟩ : Vec3)])).getD 0 0) = -1) :=
  occupancy_signedDistance_agreement trivialProvider initScene [(⟨0, 0, 0⟩ : Vec3)] 0
    (by decide)

/-- Claim C9: a query point for which no candidate is ever accepted — the
search radius is never shrunk from its infinite initial value, in
particular when the provider presents no candidates at all (no registered
geometry) — yields `geometry_ids = primitive_ids = RTC_INVALID_GEOMETRY_ID`,
because the per-query result record is initialized with both ids invalid
and is only overwritten by an accepted candidate. -/
theorem closestPoints_unaccepted_invalid_ids (cpt : Vec3 → Vec3 → Vec3 → Vec3 → Vec3 × ℚ)
    (P : Provider) (s : SceneState) (pts : List Vec3) (i : ℕ)
    (hi : i < pts.length)
    (hnone : ((P.pointCandidates (pts.getD i ⟨0, 0, 0⟩)).foldl
        (closestPointFunc cpt s.geometry_ptrs (pts.getD i ⟨0, 0, 0⟩))
        initCPState).radius = none) :
    ((sceneComputeClosestPoints cpt P s pts).2.getD i defaultCPResult).geomID =
      RTC_INVALID_GEOMETRY_ID ∧
    ((sceneComputeClosestPoints cpt P s pts).2.getD i defaultCPResult).primID =
      RTC_INVALID_GEOMETRY_ID := by
  have e1 : (sceneComputeClosestPoints cpt P s pts).2 =
      pts.map (fun q =>
        let st := (P.pointCandidates q).foldl
          (closestPointFunc cpt s.geometry_ptrs q) initCPState
        CPResult.mk st.p st.geomID st.primID) := rfl
  have h2 := cpFold_radius_none_eq cpt s.geometry_ptrs (pts.getD i ⟨0, 0, 0⟩)
    (P.pointCandidates (pts.getD i ⟨0, 0, 0⟩)) initCPState hnone
  constructor
  · rw [e1, getD_map_of_lt _ pts i ⟨0, 0, 0⟩ defaultCPResult hi]
    show ((P.pointCandidates (pts.getD i ⟨0, 0, 0⟩)).foldl
        (closestPointFunc cpt s.geometry_ptrs (pts.getD i ⟨0, 0, 0⟩))
        initCPState).geomID = RTC_INVALID_GEOMETRY_ID
    rw [h2]
    rfl
  · rw [e1, getD_map_of_lt _ pts i ⟨0, 0, 0⟩ defaultCPResult hi]
    show ((P.pointCandidates (pts.getD i ⟨0, 0, 0⟩)).foldl
        (closestPointFunc cpt s.geometry_ptrs (pts.getD i ⟨0, 0, 0⟩))
        initCPState).primID = RTC_INVALID_GEOMETRY_ID
    rw [h2]
    rfl

theorem closestPoints_unaccepted_invalid_ids_witness :
    0 < [(⟨1, 2, 3⟩ : Vec3)].length ∧
    ((trivialProvider.pointCandidates (([(⟨1, 2, 3⟩ : Vec3)]).getD 0 ⟨0, 0, 0⟩)).foldl
        (closestPointFunc (fun _ _ _ _ => (⟨0, 0, 0⟩, 0)) initScene.geometry_ptrs
          (([(⟨1, 2, 3⟩ : Vec3)]).getD 0 ⟨0, 0, 0⟩)) initCPState).radius = none ∧
    ((sceneComputeClosestPoints (fun _ _ _ _ => (⟨0, 0, 0⟩, 0)) trivialProvider initScene
        [(⟨1, 2, 3⟩ : Vec3)]).2.getD 0 defaultCPResult).geomID =
      RTC_INVALID_GEOMETRY_ID ∧
    ((sceneComputeClosestPoints (fun _ _ _ _ => (⟨0, 0, 0⟩, 0)) trivialProvider initScene
        [(⟨1, 2, 3⟩ : Vec3)]).2.getD 0 defaultCPResult).primID =
      RTC_INVALID_GEOMETRY_ID := by
  refine ⟨by decide, rfl, ?_⟩
  exact closestPoints_unaccepted_invalid_ids (fun _ _ _ _ => (⟨0, 0, 0⟩, 0)) trivialProvider
    initScene [(⟨1, 2, 3⟩ : Vec3)] 0 (by decide) rfl

/-- Claim C10: in the closest-point callback a candidate replaces the
recorded best result only when its exact distance is strictly smaller than
the current search radius (second conjunct: at or above the radius — in
particular at exactly the current best distance — the stored point, handle
and primitive id are untouched); consequently, over a full traversal the
first candidate whose distance is strictly below every earlier candidate's
and no larger than any later candidate's provides the final stored point,
radius and ids: ties are resolved in favor of the earliest candidate, in
traversal order. -/
theorem closestPoint_strict_first_min (cpt : Vec3 → Vec3 → Vec3 → Vec3 → Vec3 × ℚ)
    (geoms : List GeomRecord) (q : Vec3) (pre post : List PQCandidate) (c : PQCandidate)
    (htri : (candGeom geoms c).kind = GeomType.triangle)
    (hpre : ∀ c2 ∈ pre, (candGeom geoms c2).kind = GeomType.triangle →
      candDist cpt geoms q c < candDist cpt geoms q c2)
    (hpost : ∀ c2 ∈ post, (candGeom geoms c2).kind = GeomType.triangle →
      candDist cpt geoms q c ≤ candDist cpt geoms q c2) :
    (pre ++ c :: post).foldl (closestPointFunc cpt geoms q) initCPState =
      { radius := some (candDist cpt geoms q c)
        p := candPoint cpt geoms q c
        primID := c.primID
        geomID := c.geomID } ∧
    (∀ (st : CPState) (c2 : PQCandidate) (r : ℚ), st.radius = some r →
      ¬ candDist cpt geoms q c2 < r → closestPointFunc cpt geoms q st c2 = st) := by
  constructor
  · rw [List.foldl_append]
    have habove : cpAbove (candDist cpt geoms q c)
        (pre.foldl (closestPointFunc cpt geoms q) initCPState) :=
      cpFold_above cpt geoms q (candDist cpt geoms q c) pre initCPState hpre (Or.inl rfl)
    have hacc : radLT (candDist cpt geoms q c)
        (pre.foldl (closestPointFunc cpt geoms q) initCPState).radius = true := by
      rcases habove with h | ⟨r, hr, hlt⟩
      · rw [h]
        rfl
      · rw [hr]
        simp only [radLT, decide_eq_true_eq]
        exact hlt
    rw [List.foldl_cons, cpStep_accepted cpt geoms q _ c htri hacc]
    exact cpFold_reject cpt geoms q post _ (candDist cpt geoms q c) rfl
      (fun c2 hc2 htri2 => not_lt.mpr (hpost c2 hc2 htri2))
  · intro st c2 r hr hlt
    exact cpStep_reject_of_not_lt cpt geoms q st c2 r hr (fun _ => hlt)

theorem closestPoint_strict_first_min_witness :
    (([] ++ (⟨0, 0⟩ : PQCandidate) :: [(⟨0, 1⟩ : PQCandidate)]).foldl
        (closestPointFunc (fun _ _ _ _ => (⟨0, 0, 0⟩, 5))
          [{ kind := GeomType.triangle, numVertices := 3, vertexData := fun _ => 0,
             numTriangles := 1, indexData := fun _ => 0 }] ⟨0, 0, 0⟩) initCPState =
      { radius := some (candDist (fun _ _ _ _ => (⟨0, 0, 0⟩, 5))
          [{ kind := GeomType.triangle, numVertices := 3, vertexData := fun _ => 0,
             numTriangles := 1, indexData := fun _ => 0 }] ⟨0, 0, 0⟩ ⟨0, 0⟩)
        p := candPoint (fun _ _ _ _ => (⟨0, 0, 0⟩, 5))
          [{ kind := GeomType.triangle, numVertices := 3, vertexData := fun _ => 0,
             numTriangles := 1, indexData := fun _ => 0 }] ⟨0, 0, 0⟩ ⟨0, 0⟩
        primID := (⟨0, 0⟩ : PQCandidate).primID
        geomID := (⟨0, 0⟩ : PQCandidate).geomID }) ∧
    closestPointFunc (fun _ _ _ _ => (⟨0, 0, 0⟩, 5))
        [{ kind := GeomType.triangle, numVertices := 3, vertexData := fun _ => 0,
           numTriangles := 1, indexData := fun _ => 0 }] ⟨0, 0, 0⟩
        { radius := some 5, p := ⟨0, 0, 0⟩, primID := 0, geomID := 0 } ⟨0, 1⟩ =
      { radius := some 5, p := ⟨0, 0, 0⟩, primID := 0, geomID := 0 } := by
  have h := closestPoint_strict_first_min (fun _ _ _ _ => (⟨0, 0, 0⟩, 5))
    [{ kind := GeomType.triangle, numVertices := 3, vertexData := fun _ => 0,
       numTriangles := 1, indexData := fun _ => 0 }] ⟨0, 0, 0⟩ [] [(⟨0, 1⟩ : PQCandidate)]
    (⟨0, 0⟩ : PQCandidate) rfl
    (by intro c2 hc2; exact absurd hc2 (List.not_mem_nil c2))
    (by intro c2 _ _; exact le_refl _)
  exact ⟨h.1, h.2 { radius := some 5, p := ⟨0, 0, 0⟩, primID := 0, geomID := 0 } ⟨0, 1⟩ 5
    rfl (by decide)⟩
